import Mathlib

/-!
Shallow embedding of `src/viz.py` (repository `npmj`), centered on the
grid-tiling routine `batch_of_images_to_grid`.

A numpy `ndarray` is modelled as a shape (list of dimension sizes) together
with its elements flattened in row-major (C) order.  Each numpy operation
the source uses is embedded as a function on this representation, and the
tiler is the literal composition of those operations, following the source
line by line: the two asserts, `imgs[:n_cells]`, `np.expand_dims`, `np.pad`,
`reshape`, `swapaxes(1,2)`, `reshape`, and the final `squeeze(axis=2)`.
-/

/-- A numpy array: dimension sizes plus the flat row-major element list.
A well-formed array (`NpArray.WF`) stores exactly one element per index. -/
structure NpArray (α : Type) where
  shape : List Nat
  data : List α
  deriving DecidableEq

/-- The rank of the array (numpy `ndarray.ndim`). -/
def NpArray.ndim (a : NpArray α) : Nat := a.shape.length

/-- Well-formedness: the flat data holds exactly `shape.prod` elements. -/
def NpArray.WF (a : NpArray α) : Prop := a.data.length = a.shape.prod

/-- Errors the Python code can raise, plus `shapeMismatch`, which the spec
contract names but the code never raises.  `invalidArgument` stands for an
`AssertionError` (carrying the assert message), `indexError` for numpy's
`IndexError` (basic slicing of a 0-d array), `valueError` for numpy's
`ValueError` (tuple-unpacking or reshape failure). -/
inductive VizError
  | invalidArgument (msg : String)
  | indexError
  | valueError
  | shapeMismatch
  deriving DecidableEq

/-- Row-major flat position of a multi-index within a shape. -/
def flatIndex : List Nat → List Nat → Nat
  | _ :: ds, i :: is => i * ds.prod + flatIndex ds is
  | _, _ => 0

/-- The multi-index within a shape corresponding to a row-major flat
position. -/
def multiIndex : List Nat → Nat → List Nat
  | [], _ => []
  | _ :: ds, n => n / ds.prod :: multiIndex ds (n % ds.prod)

/-- Swap the entries at positions `i` and `j` of a list (used both for
shapes and for multi-indices). -/
def swapPos (i j : Nat) (l : List Nat) : List Nat :=
  (l.set i (l.getD j 0)).set j (l.getD i 0)

/-- Element at a multi-index (0 when out of range; an in-range access on a
well-formed array never hits the default). -/
def NpArray.get [Zero α] (a : NpArray α) (idx : List Nat) : α :=
  a.data.getD (flatIndex a.shape idx) 0

/-- Basic slicing `a[:n]` along axis 0: the first `min n d0` subarrays.
On a 0-d array numpy raises `IndexError: too many indices for array`. -/
def NpArray.slice0 (a : NpArray α) (n : Nat) : Except VizError (NpArray α) :=
  match a.shape with
  | [] => .error .indexError
  | d0 :: ds =>
      .ok { shape := min n d0 :: ds, data := a.data.take (min n d0 * ds.prod) }

/-- For a rank-3 array, `np.expand_dims(a, axis=3)`: append a length-1
axis at the end. -/
def NpArray.expandDimsLast (a : NpArray α) : NpArray α :=
  { shape := a.shape ++ [1], data := a.data }

/-- In the source, `np.pad(a, pad_width=[(0,gap),(0,0),(0,0),(0,0)],
mode="constant", constant_values=0)`: append `gap` blank subarrays along
axis 0. -/
def NpArray.padAxis0 [Zero α] (a : NpArray α) (gap : Nat) : NpArray α :=
  match a.shape with
  | [] => a
  | d0 :: ds =>
      { shape := (d0 + gap) :: ds
        data := a.data ++ List.replicate (gap * ds.prod) 0 }

/-- Numpy `ndarray.reshape`: same flat data, new shape; numpy raises
`ValueError` when the element counts disagree. -/
def NpArray.reshape (a : NpArray α) (sh : List Nat) : Option (NpArray α) :=
  if a.shape.prod = sh.prod then some { shape := sh, data := a.data } else none

/-- Numpy `ndarray.swapaxes i j`, materialised in C order: the flat data is
re-enumerated in the row-major order of the swapped shape (which is exactly
what a subsequent `reshape` reads off the strided view). -/
def NpArray.swapaxes [Zero α] (a : NpArray α) (i j : Nat) : NpArray α :=
  let sh := swapPos i j a.shape
  { shape := sh
    data := (List.range sh.prod).map fun p =>
      a.data.getD (flatIndex a.shape (swapPos i j (multiIndex sh p))) 0 }

/-- Numpy `ndarray.squeeze(axis=2)`: drop axis 2, which must have size 1. -/
def NpArray.squeeze2 (a : NpArray α) : Option (NpArray α) :=
  match a.shape with
  | d0 :: d1 :: 1 :: rest => some { shape := d0 :: d1 :: rest, data := a.data }
  | _ => none

instance {ε α : Type} [DecidableEq ε] [DecidableEq α] : DecidableEq (Except ε α) :=
  fun a b =>
    match a, b with
    | .error e, .error f => decidable_of_iff (e = f) (by simp)
    | .ok x, .ok y => decidable_of_iff (x = y) (by simp)
    | .error _, .ok _ => isFalse (by simp)
    | .ok _, .error _ => isFalse (by simp)

/-- The message of the first assert in the source. -/
def posMsg : String := "rows and cols must be positive integers"

/-- The message of the rank assert in the source. -/
def dimMsg : String := "Incorrect # of dimensions for input array"

/-- Embedding of `batch_of_images_to_grid(imgs, rows, cols)` from
`src/viz.py`, following the source control flow statement by statement. -/
def batch_of_images_to_grid [Zero α] (imgs0 : NpArray α) (rows cols : Int) :
    Except VizError (NpArray α) :=
  if 0 < rows ∧ 0 < cols then
    let n_cells : Nat := (rows * cols).toNat
    match imgs0.slice0 n_cells with
    | .error e => .error e
    | .ok imgs1 =>
      let n_dims := imgs1.ndim
      if n_dims = 3 ∨ n_dims = 4 then
        let imgs2 := if n_dims = 3 then imgs1.expandDimsLast else imgs1
        match imgs2.shape with
        | [n_batch, img_height, img_width, n_channels] =>
          let n_gap := n_cells - n_batch
          let imgs3 := imgs2.padAxis0 n_gap
          match imgs3.reshape
              [rows.toNat, cols.toNat, img_height, img_width, n_channels] with
          | none => .error .valueError
          | some r5 =>
            let s5 := r5.swapaxes 1 2
            match s5.reshape
                [rows.toNat * img_height, cols.toNat * img_width, n_channels] with
            | none => .error .valueError
            | some grid =>
              if n_dims = 3 then
                match grid.squeeze2 with
                | none => .error .valueError
                | some g => .ok g
              else .ok grid
        | _ => .error .valueError
      else .error (.invalidArgument dimMsg)
  else .error (.invalidArgument posMsg)

instance : Zero (NpArray α) := ⟨⟨[], []⟩⟩

/-- Numpy `np.asarray` on a list of same-shaped images: the stacked batch
array.  Heterogeneous shapes do not stack (numpy then builds a rank-1
object array instead). -/
def stackImages (images : List (NpArray α)) : Option (NpArray α) :=
  match images with
  | [] => none
  | img :: rest =>
      if (img :: rest).all fun i => i.shape == img.shape then
        some { shape := (img :: rest).length :: img.shape
               data := ((img :: rest).map NpArray.data).flatten }
      else none

/-- A heterogeneous image list as numpy represents it: a rank-1 object
array whose elements are the images themselves. -/
def objArray (images : List (NpArray α)) : NpArray (NpArray α) :=
  { shape := [images.length], data := images }

/-- Running the tiler on a list of images, as a numpy caller would: a
same-shaped non-empty list stacks into a rank-(1+k) batch; a heterogeneous
list only forms a rank-1 object array, on which the tiler is then run (its
rank check rejects it before any element is touched, so the `.ok` fallback
below is unreachable). -/
def tileList [Zero α] (images : List (NpArray α)) (rows cols : Int) :
    Except VizError (NpArray α) :=
  match stackImages images with
  | some a => batch_of_images_to_grid a rows cols
  | none =>
      match batch_of_images_to_grid (objArray images) rows cols with
      | .error e => .error e
      | .ok _ => .ok 0

/-- Whether a tiler result is an error. -/
def isError : Except VizError (NpArray α) → Bool
  | .error _ => true
  | .ok _ => false

/-- Whether a tiler result is specifically an `AssertionError`, the
concrete form of the spec's `InvalidArgument`. -/
def isInvalidArg : Except VizError (NpArray α) → Bool
  | .error (.invalidArgument _) => true
  | _ => false

/-- Closed form of the tiler data pipeline on a (possibly expanded) rank-4
batch of shape `[N, H, W, C]` with grid dimensions `R` by `Cl`: truncate to
the first `min (R*Cl) N` images, zero-pad to `R*Cl` images, then enumerate
the elements in grid order. -/
def gridData [Zero α] (R Cl N H W C : Nat) (d : List α) : List α :=
  (List.range ([R, H, Cl, W, C].prod)).map fun p =>
    (d.take (min (R * Cl) N * [H, W, C].prod) ++
        List.replicate ((R * Cl - min (R * Cl) N) * [H, W, C].prod) 0).getD
      (flatIndex [R, Cl, H, W, C] (swapPos 1 2 (multiIndex [R, H, Cl, W, C] p))) 0

/-! Basic list-access lemmas used throughout. -/

theorem getD_range_map {α : Type} (f : Nat → α) (n p : Nat) (d : α) :
    ((List.range n).map f).getD p d = if p < n then f p else d := by
  rw [List.getD_eq_getElem?_getD, List.getElem?_map]
  by_cases h : p < n
  · rw [List.getElem?_range h, if_pos h, Option.map_some', Option.getD_some]
  · rw [List.getElem?_eq_none, if_neg h, Option.map_none', Option.getD_none]
    rw [List.length_range]
    omega

theorem getD_append_lt {α : Type} (l1 l2 : List α) (n : Nat) (d : α)
    (h : n < l1.length) : (l1 ++ l2).getD n d = l1.getD n d := by
  rw [List.getD_eq_getElem?_getD, List.getD_eq_getElem?_getD,
    List.getElem?_append_left h]

theorem getD_append_ge {α : Type} (l1 l2 : List α) (n : Nat) (d : α)
    (h : l1.length ≤ n) : (l1 ++ l2).getD n d = l2.getD (n - l1.length) d := by
  rw [List.getD_eq_getElem?_getD, List.getD_eq_getElem?_getD,
    List.getElem?_append_right h]

theorem getD_take_lt {α : Type} (l : List α) (m n : Nat) (d : α) (h : n < m) :
    (l.take m).getD n d = l.getD n d := by
  rw [List.getD_eq_getElem?_getD, List.getD_eq_getElem?_getD,
    List.getElem?_take, if_pos h]

theorem getD_replicate_self {α : Type} (k n : Nat) (d : α) :
    (List.replicate k d).getD n d = d := by
  rw [List.getD_eq_getElem?_getD, List.getElem?_replicate]
  split <;> rfl

theorem getD_mem_or {α : Type} (l : List α) (n : Nat) (d : α) :
    l.getD n d ∈ l ∨ l.getD n d = d := by
  rw [List.getD_eq_getElem?_getD]
  cases h : l[n]? with
  | none => exact Or.inr rfl
  | some x => exact Or.inl (by rw [Option.getD_some]; exact List.getElem?_mem h)

theorem intToNat_mul (a b : Int) (ha : 0 ≤ a) (hb : 0 ≤ b) :
    (a * b).toNat = a.toNat * b.toNat := by
  rw [← Int.toNat_of_nonneg ha, ← Int.toNat_of_nonneg hb, ← Int.natCast_mul,
    Int.toNat_natCast, Int.toNat_natCast, Int.toNat_natCast]

/-! Arithmetic of row-major flat indices and multi-indices. -/

theorem addIndex_lt (i r e P : Nat) (hi : i < e) (hr : r < P) :
    i * P + r < e * P := by
  calc i * P + r < i * P + P := by omega
    _ = (i + 1) * P := by ring
    _ ≤ e * P := Nat.mul_le_mul_right P hi

theorem multiIndex_peel (e : Nat) (ds : List Nat) (q r : Nat)
    (hr : r < ds.prod) :
    multiIndex (e :: ds) (q * ds.prod + r) = q :: multiIndex ds r := by
  have hP : 0 < ds.prod := lt_of_le_of_lt (Nat.zero_le r) hr
  have h1 : (q * ds.prod + r) / ds.prod = q := by
    rw [Nat.mul_comm, Nat.mul_add_div hP, Nat.div_eq_of_lt hr, Nat.add_zero]
  have h2 : (q * ds.prod + r) % ds.prod = r := by
    rw [Nat.mul_comm, Nat.mul_add_mod, Nat.mod_eq_of_lt hr]
  simp only [multiIndex, h1, h2]

theorem multiIndex_last (C ch : Nat) : multiIndex [C] ch = [ch] := by
  simp [multiIndex]

theorem swapPos12 (a b c d e : Nat) :
    swapPos 1 2 [a, b, c, d, e] = [a, c, b, d, e] := rfl

theorem flatIndex_cons (e : Nat) (ds : List Nat) (x : Nat) (xs : List Nat) :
    flatIndex (e :: ds) (x :: xs) = x * ds.prod + flatIndex ds xs := rfl

theorem flatIndex_nil (l : List Nat) : flatIndex [] l = 0 := rfl

theorem flatIndex_nil2 (l : List Nat) : flatIndex l [] = 0 := by
  cases l <;> rfl

theorem consProdBound (e : Nat) (ds : List Nat) (x rest : Nat)
    (hx : x < e) (hrest : rest < ds.prod) :
    x * ds.prod + rest < (e :: ds).prod := by
  rw [List.prod_cons]
  exact addIndex_lt x rest e ds.prod hx hrest

theorem multiIndex5 (R H Cl W C r i c j ch : Nat)
    (hr : r < R) (hi : i < H) (hc : c < Cl) (hj : j < W) (hch : ch < C) :
    multiIndex [R, H, Cl, W, C]
      (r * [H, Cl, W, C].prod +
        (i * [Cl, W, C].prod + (c * [W, C].prod + (j * [C].prod + ch)))) =
      [r, i, c, j, ch] := by
  have hch1 : ch < [C].prod := by simpa using hch
  have b1 : j * [C].prod + ch < [W, C].prod :=
    consProdBound W [C] j ch hj hch1
  have b2 : c * [W, C].prod + (j * [C].prod + ch) < [Cl, W, C].prod :=
    consProdBound Cl [W, C] c _ hc b1
  have b3 : i * [Cl, W, C].prod + (c * [W, C].prod + (j * [C].prod + ch)) <
      [H, Cl, W, C].prod :=
    consProdBound H [Cl, W, C] i _ hi b2
  rw [multiIndex_peel R [H, Cl, W, C] r _ b3,
    multiIndex_peel H [Cl, W, C] i _ b2,
    multiIndex_peel Cl [W, C] c _ b1,
    multiIndex_peel W [C] j ch hch1, multiIndex_last]

/-- The central index computation: in the tiled output of shape
`[R*H, Cl*W, C]`, the pixel at `(r*H + i, c*W + j, ch)` is pixel `(i, j, ch)`
of cell `r*Cl + c`, read from the truncated-and-padded batch: image
`r*Cl + c` of the input when that cell index is below `N`, and 0 otherwise. -/
theorem grid_get_eq {α : Type} [Zero α] (R Cl N H W C r c i j ch : Nat)
    (d : List α) (hlen : N * [H, W, C].prod ≤ d.length)
    (hr : r < R) (hc : c < Cl) (hi : i < H) (hj : j < W) (hch : ch < C) :
    NpArray.get ⟨[R * H, Cl * W, C], gridData R Cl N H W C d⟩
        [r * H + i, c * W + j, ch] =
      if r * Cl + c < N then
        NpArray.get ⟨[N, H, W, C], d⟩ [r * Cl + c, i, j, ch] else 0 := by
  have hch1 : ch < [C].prod := by simpa using hch
  have b1 : j * [C].prod + ch < [W, C].prod :=
    consProdBound W [C] j ch hj hch1
  have b2 : c * [W, C].prod + (j * [C].prod + ch) < [Cl, W, C].prod :=
    consProdBound Cl [W, C] c _ hc b1
  have b3 : i * [Cl, W, C].prod + (c * [W, C].prod + (j * [C].prod + ch)) <
      [H, Cl, W, C].prod :=
    consProdBound H [Cl, W, C] i _ hi b2
  have hqb : i * [W, C].prod + (j * [C].prod + ch) < [H, W, C].prod :=
    consProdBound H [W, C] i _ hi b1
  simp only [NpArray.get]
  have hp : flatIndex [R * H, Cl * W, C] [r * H + i, c * W + j, ch] =
      r * [H, Cl, W, C].prod +
        (i * [Cl, W, C].prod + (c * [W, C].prod + (j * [C].prod + ch))) := by
    simp only [flatIndex_cons, flatIndex_nil, List.prod_cons, List.prod_nil]
    ring
  rw [hp]
  simp only [gridData, getD_range_map]
  rw [if_pos (consProdBound R [H, Cl, W, C] r _ hr b3)]
  rw [multiIndex5 R H Cl W C r i c j ch hr hi hc hj hch, swapPos12]
  have hq : flatIndex [R, Cl, H, W, C] [r, c, i, j, ch] =
      (r * Cl + c) * [H, W, C].prod +
        (i * [W, C].prod + (j * [C].prod + ch)) := by
    simp only [flatIndex_cons, flatIndex_nil, List.prod_cons, List.prod_nil]
    ring
  rw [hq]
  have hTlen : (d.take (min (R * Cl) N * [H, W, C].prod)).length =
      min (R * Cl) N * [H, W, C].prod := by
    rw [List.length_take]
    apply Nat.min_eq_left
    calc min (R * Cl) N * [H, W, C].prod
        ≤ N * [H, W, C].prod :=
          Nat.mul_le_mul_right _ (Nat.min_le_right _ _)
      _ ≤ d.length := hlen
  have hk : r * Cl + c < R * Cl := addIndex_lt r c R Cl hr hc
  by_cases hN : r * Cl + c < N
  · rw [if_pos hN]
    have hkm : r * Cl + c < min (R * Cl) N := lt_min hk hN
    have hidx : (r * Cl + c) * [H, W, C].prod +
        (i * [W, C].prod + (j * [C].prod + ch)) <
        min (R * Cl) N * [H, W, C].prod :=
      addIndex_lt _ _ _ _ hkm hqb
    rw [getD_append_lt _ _ _ _ (by rw [hTlen]; exact hidx)]
    rw [getD_take_lt _ _ _ _ hidx]
    have hq2 : flatIndex [N, H, W, C] [r * Cl + c, i, j, ch] =
        (r * Cl + c) * [H, W, C].prod +
          (i * [W, C].prod + (j * [C].prod + ch)) := by
      simp only [flatIndex_cons, flatIndex_nil, List.prod_cons, List.prod_nil]
      ring
    rw [hq2]
  · rw [if_neg hN]
    have hge : (d.take (min (R * Cl) N * [H, W, C].prod)).length ≤
        (r * Cl + c) * [H, W, C].prod +
          (i * [W, C].prod + (j * [C].prod + ch)) := by
      rw [hTlen, Nat.min_eq_right (by omega)]
      calc N * [H, W, C].prod
          ≤ (r * Cl + c) * [H, W, C].prod :=
            Nat.mul_le_mul_right _ (by omega)
        _ ≤ _ := Nat.le_add_right _ _
    rw [getD_append_ge _ _ _ _ hge]
    exact getD_replicate_self _ _ _

/-! Evaluation of the tiler on each control-flow path. -/

/-- On a rank-4 batch with positive `rows`, `cols`, the tiler succeeds and
produces exactly the shape and data of `gridData`. -/
theorem run4_eq {α : Type} [Zero α] (d : List α) (rows cols : Int)
    (N H W C : Nat) (hr : 0 < rows) (hc : 0 < cols) :
    batch_of_images_to_grid ⟨[N, H, W, C], d⟩ rows cols =
      .ok ⟨[rows.toNat * H, cols.toNat * W, C],
        gridData rows.toNat cols.toNat N H W C d⟩ := by
  have hRC : (rows * cols).toNat = rows.toNat * cols.toNat :=
    intToNat_mul rows cols hr.le hc.le
  unfold batch_of_images_to_grid
  rw [if_pos ⟨hr, hc⟩, hRC]
  simp only [NpArray.slice0, NpArray.ndim, List.length_cons, List.length_nil]
  norm_num
  have hfill : rows.toNat * cols.toNat ⊓ N +
      (rows.toNat * cols.toNat - rows.toNat * cols.toNat ⊓ N) =
      rows.toNat * cols.toNat := by omega
  simp only [NpArray.padAxis0]
  rw [hfill]
  simp [NpArray.reshape, NpArray.swapaxes, gridData, Nat.mul_assoc,
    show swapPos 1 2 [rows.toNat, cols.toNat, H, W, C] =
      [rows.toNat, H, cols.toNat, W, C] from rfl]

/-- On a rank-3 (channel-less) batch with positive `rows`, `cols`, the tiler
succeeds: the pipeline runs with an appended channel axis of size 1, which
the final squeeze removes again. -/
theorem run3_eq {α : Type} [Zero α] (d : List α) (rows cols : Int)
    (N H W : Nat) (hr : 0 < rows) (hc : 0 < cols) :
    batch_of_images_to_grid ⟨[N, H, W], d⟩ rows cols =
      .ok ⟨[rows.toNat * H, cols.toNat * W],
        gridData rows.toNat cols.toNat N H W 1 d⟩ := by
  have hRC : (rows * cols).toNat = rows.toNat * cols.toNat :=
    intToNat_mul rows cols hr.le hc.le
  unfold batch_of_images_to_grid
  rw [if_pos ⟨hr, hc⟩, hRC]
  simp only [NpArray.slice0, NpArray.ndim, List.length_cons, List.length_nil]
  norm_num
  have hfill : rows.toNat * cols.toNat ⊓ N +
      (rows.toNat * cols.toNat - rows.toNat * cols.toNat ⊓ N) =
      rows.toNat * cols.toNat := by omega
  simp only [NpArray.expandDimsLast, NpArray.padAxis0, List.cons_append,
    List.nil_append]
  rw [hfill]
  simp [NpArray.reshape, NpArray.swapaxes, NpArray.squeeze2, gridData,
    Nat.mul_assoc,
    show swapPos 1 2 [rows.toNat, cols.toNat, H, W, 1] =
      [rows.toNat, H, cols.toNat, W, 1] from rfl]

/-- Non-positive `rows` or `cols` fire the first assert. -/
theorem err_nonpos {α : Type} [Zero α] (a : NpArray α) (rows cols : Int)
    (h : ¬(0 < rows ∧ 0 < cols)) :
    batch_of_images_to_grid a rows cols = .error (.invalidArgument posMsg) := by
  unfold batch_of_images_to_grid
  rw [if_neg h]

/-- A 0-d input fails at `imgs[:n_cells]` with `IndexError`, before the
rank assert is reached. -/
theorem err_rank0 {α : Type} [Zero α] (d : List α) (rows cols : Int)
    (hr : 0 < rows) (hc : 0 < cols) :
    batch_of_images_to_grid ⟨[], d⟩ rows cols = .error .indexError := by
  unfold batch_of_images_to_grid
  rw [if_pos ⟨hr, hc⟩]
  rfl

/-- Any rank outside `{3, 4}` other than 0 fires the rank assert. -/
theorem err_badrank {α : Type} [Zero α] (sh : List Nat) (d : List α)
    (rows cols : Int) (hr : 0 < rows) (hc : 0 < cols) (hne : sh ≠ [])
    (h3 : sh.length ≠ 3) (h4 : sh.length ≠ 4) :
    batch_of_images_to_grid ⟨sh, d⟩ rows cols =
      .error (.invalidArgument dimMsg) := by
  obtain ⟨d0, ds, rfl⟩ : ∃ d0 ds, sh = d0 :: ds := by
    cases sh with
    | nil => exact absurd rfl hne
    | cons a l => exact ⟨a, l, rfl⟩
  simp only [List.length_cons] at h3 h4
  unfold batch_of_images_to_grid
  rw [if_pos ⟨hr, hc⟩]
  simp only [NpArray.slice0, NpArray.ndim, List.length_cons]
  rw [if_neg (by omega)]

/-- Destructuring a length-3 shape. -/
theorem shape3 (sh : List Nat) (h : sh.length = 3) :
    ∃ a b c, sh = [a, b, c] := by
  rcases sh with _ | ⟨a, _ | ⟨b, _ | ⟨c, _ | ⟨x, t⟩⟩⟩⟩ <;> simp at h
  exact ⟨a, b, c, rfl⟩

/-- Destructuring a length-4 shape. -/
theorem shape4 (sh : List Nat) (h : sh.length = 4) :
    ∃ a b c e, sh = [a, b, c, e] := by
  rcases sh with _ | ⟨a, _ | ⟨b, _ | ⟨c, _ | ⟨e, _ | ⟨x, t⟩⟩⟩⟩⟩ <;> simp at h
  exact ⟨a, b, c, e, rfl⟩

/-! Facts about the closed-form grid data. -/

/-- Every element of the tiled data is an input element or a padding zero. -/
theorem gridData_mem {α : Type} [Zero α] (R Cl N H W C : Nat) (d : List α)
    (x : α) (hx : x ∈ gridData R Cl N H W C d) : x ∈ d ∨ x = 0 := by
  simp only [gridData, List.mem_map] at hx
  obtain ⟨p, -, rfl⟩ := hx
  rcases getD_mem_or _ _ (0 : α) with hmem | heq
  · rcases List.mem_append.mp hmem with hT | hZ
    · exact Or.inl (List.take_subset _ _ hT)
    · exact Or.inr (List.eq_of_mem_replicate hZ)
  · exact Or.inr heq

/-- With an empty batch every cell is padding: the whole grid is zero. -/
theorem gridData_all_zero {α : Type} [Zero α] (R Cl H W C : Nat) (d : List α)
    (x : α) (hx : x ∈ gridData R Cl 0 H W C d) : x = 0 := by
  simp only [gridData, List.mem_map] at hx
  obtain ⟨p, -, rfl⟩ := hx
  simp [getD_replicate_self]

/-- When the grid capacity does not exceed either batch size, the tiled data
depends only on the first `capacity` images. -/
theorem gridData_take_eq {α : Type} [Zero α] (R Cl N N2 H W C : Nat)
    (d d2 : List α) (hN : R * Cl ≤ N) (hN2 : R * Cl ≤ N2)
    (hpre : d.take (R * Cl * [H, W, C].prod) =
      d2.take (R * Cl * [H, W, C].prod)) :
    gridData R Cl N H W C d = gridData R Cl N2 H W C d2 := by
  have h1 : min (R * Cl) N = R * Cl := Nat.min_eq_left hN
  have h2 : min (R * Cl) N2 = R * Cl := Nat.min_eq_left hN2
  simp only [gridData, h1, h2, Nat.sub_self, Nat.zero_mul,
    List.replicate_zero, List.append_nil]
  rw [hpre]

/-- Rank-2 indexing agrees with rank-3 indexing through a trailing
size-1 axis on the same flat data. -/
theorem get2_eq_get3 {α : Type} [Zero α] (A B : Nat) (dd : List α)
    (x y : Nat) :
    NpArray.get ⟨[A, B], dd⟩ [x, y] = NpArray.get ⟨[A, B, 1], dd⟩ [x, y, 0] := by
  simp only [NpArray.get]
  have h : flatIndex [A, B] [x, y] = flatIndex [A, B, 1] [x, y, 0] := by
    simp only [flatIndex_cons, flatIndex_nil, flatIndex_nil2,
      List.prod_cons, List.prod_nil]
    ring
  rw [h]

/-- Rank-3 indexing agrees with rank-4 indexing through a trailing
size-1 axis on the same flat data. -/
theorem get3_eq_get4 {α : Type} [Zero α] (A B E : Nat) (dd : List α)
    (x y z : Nat) :
    NpArray.get ⟨[A, B, E], dd⟩ [x, y, z] =
      NpArray.get ⟨[A, B, E, 1], dd⟩ [x, y, z, 0] := by
  simp only [NpArray.get]
  have h : flatIndex [A, B, E] [x, y, z] = flatIndex [A, B, E, 1] [x, y, z, 0] := by
    simp only [flatIndex_cons, flatIndex_nil, flatIndex_nil2,
      List.prod_cons, List.prod_nil]
    ring
  rw [h]

/-! The claims. -/

/-- C3: the tiler preserves channel dimensionality: with positive `rows` and
`cols`, a rank-3 (channel-less) batch yields a rank-2 grid and a rank-4 batch
yields a rank-3 grid, so the channel axis is present in the output exactly
when it is present in the input. -/
theorem C3_rank_preserved (a : NpArray Int) (rows cols : Int)
    (hr : 0 < rows) (hc : 0 < cols) (hrank : a.ndim = 3 ∨ a.ndim = 4) :
    ∃ g, batch_of_images_to_grid a rows cols = .ok g ∧ g.ndim + 1 = a.ndim := by
  obtain ⟨sh, d⟩ := a
  rcases hrank with h3 | h4
  · obtain ⟨N, H, W, rfl⟩ := shape3 sh h3
    exact ⟨_, run3_eq d rows cols N H W hr hc, rfl⟩
  · obtain ⟨N, H, W, C, rfl⟩ := shape4 sh h4
    exact ⟨_, run4_eq d rows cols N H W C hr hc, rfl⟩

theorem C3_rank_preserved_witness :
    ∃ g, batch_of_images_to_grid (⟨[1, 1, 1], [7]⟩ : NpArray Int) 1 1 =
      .ok g ∧ g.ndim + 1 = (⟨[1, 1, 1], [7]⟩ : NpArray Int).ndim :=
  C3_rank_preserved ⟨[1, 1, 1], [7]⟩ 1 1 (by norm_num) (by norm_num)
    (Or.inl rfl)

/-- C6: on 3 grayscale 2x2 images filled with 1, 2, 3 and a 2x2 grid, the
output is the 4x4 array whose top-left block is all 1, top-right all 2,
bottom-left all 3 and bottom-right all 0 (the flat rows below read
1 1 2 2 / 1 1 2 2 / 3 3 0 0 / 3 3 0 0). -/
theorem C6_scenario :
    batch_of_images_to_grid
      (⟨[3, 2, 2], [1, 1, 1, 1, 2, 2, 2, 2, 3, 3, 3, 3]⟩ : NpArray Int) 2 2 =
      .ok ⟨[4, 4], [1, 1, 2, 2, 1, 1, 2, 2, 3, 3, 0, 0, 3, 3, 0, 0]⟩ := by
  decide

/-- C7: the tiler is deterministic: equal batches and equal grid dimensions
give equal results.  (Freedom from mutation of the input holds by
construction of this embedding: every numpy call the source makes is
modelled as a value transform and none writes to its argument.) -/
theorem C7_deterministic (a b : NpArray Int) (rows cols rows2 cols2 : Int)
    (ha : a = b) (hrows : rows = rows2) (hcols : cols = cols2) :
    batch_of_images_to_grid a rows cols =
      batch_of_images_to_grid b rows2 cols2 := by
  subst ha
  subst hrows
  subst hcols
  rfl

theorem C7_deterministic_witness :
    batch_of_images_to_grid (⟨[1, 1, 1], [7]⟩ : NpArray Int) 1 1 =
      batch_of_images_to_grid (⟨[1, 1, 1], [7]⟩ : NpArray Int) 1 1 :=
  C7_deterministic ⟨[1, 1, 1], [7]⟩ ⟨[1, 1, 1], [7]⟩ 1 1 1 1 rfl rfl rfl

/-- C8: under the preconditions (positive `rows` and `cols`, rank 3 or 4)
the tiler always returns normally: neither assert fires, slicing succeeds,
and both reshapes and the final squeeze are well-defined. -/
theorem C8_no_failure (a : NpArray Int) (rows cols : Int)
    (hr : 0 < rows) (hc : 0 < cols) (hrank : a.ndim = 3 ∨ a.ndim = 4) :
    ∃ g, batch_of_images_to_grid a rows cols = .ok g := by
  obtain ⟨sh, d⟩ := a
  rcases hrank with h3 | h4
  · obtain ⟨N, H, W, rfl⟩ := shape3 sh h3
    exact ⟨_, run3_eq d rows cols N H W hr hc⟩
  · obtain ⟨N, H, W, C, rfl⟩ := shape4 sh h4
    exact ⟨_, run4_eq d rows cols N H W C hr hc⟩

theorem C8_no_failure_witness :
    ∃ g, batch_of_images_to_grid (⟨[2, 1, 1, 1], [7, 8]⟩ : NpArray Int) 2 1 =
      .ok g :=
  C8_no_failure ⟨[2, 1, 1, 1], [7, 8]⟩ 2 1 (by norm_num) (by norm_num)
    (Or.inr rfl)

/-- C9: element-type preservation.  Whenever the tiler succeeds, every
element of the output grid is either an element of the input batch or the
padding zero of the same scalar type (the embedding is parametric in the
element type, so no conversion can occur). -/
theorem C9_dtype_preserved (a : NpArray Int) (rows cols : Int)
    (g : NpArray Int) (h : batch_of_images_to_grid a rows cols = .ok g) :
    ∀ x ∈ g.data, x ∈ a.data ∨ x = 0 := by
  obtain ⟨sh, dd⟩ := a
  by_cases hpos : 0 < rows ∧ 0 < cols
  · obtain ⟨hr, hc⟩ := hpos
    by_cases h3 : sh.length = 3
    · obtain ⟨N, H, W, rfl⟩ := shape3 sh h3
      rw [run3_eq dd rows cols N H W hr hc] at h
      injection h with h2
      subst h2
      intro x hx
      exact gridData_mem _ _ _ _ _ _ _ _ hx
    · by_cases h4 : sh.length = 4
      · obtain ⟨N, H, W, C, rfl⟩ := shape4 sh h4
        rw [run4_eq dd rows cols N H W C hr hc] at h
        injection h with h2
        subst h2
        intro x hx
        exact gridData_mem _ _ _ _ _ _ _ _ hx
      · cases sh with
        | nil =>
          rw [err_rank0 dd rows cols hr hc] at h
          simp at h
        | cons d0 ds =>
          rw [err_badrank (d0 :: ds) dd rows cols hr hc (by simp) h3 h4] at h
          simp at h
  · rw [err_nonpos _ rows cols hpos] at h
    simp at h

theorem C9_dtype_preserved_witness :
    (1 : Int) ∈ ([1, 1, 1, 1, 2, 2, 2, 2, 3, 3, 3, 3] : List Int) ∨
      (1 : Int) = 0 :=
  C9_dtype_preserved ⟨[3, 2, 2], [1, 1, 1, 1, 2, 2, 2, 2, 3, 3, 3, 3]⟩ 2 2
    ⟨[4, 4], [1, 1, 2, 2, 1, 1, 2, 2, 3, 3, 0, 0, 3, 3, 0, 0]⟩ (by decide)
    1 (by decide)

/-- C10: an empty batch (`N = 0`) of rank 3 or 4 with known per-image
height, width (and channels) is accepted and yields an all-zero grid of the
full grid shape. -/
theorem C10_empty_batch (a : NpArray Int) (rows cols : Int) (H W C : Nat)
    (hr : 0 < rows) (hc : 0 < cols)
    (hsh : a.shape = [0, H, W] ∨ a.shape = [0, H, W, C]) :
    ∃ g, batch_of_images_to_grid a rows cols = .ok g ∧
      (a.shape = [0, H, W] → g.shape = [rows.toNat * H, cols.toNat * W]) ∧
      (a.shape = [0, H, W, C] →
        g.shape = [rows.toNat * H, cols.toNat * W, C]) ∧
      ∀ x ∈ g.data, x = 0 := by
  obtain ⟨sh, dd⟩ := a
  rcases hsh with h | h
  · obtain rfl : sh = [0, H, W] := h
    refine ⟨_, run3_eq dd rows cols 0 H W hr hc, fun _ => rfl,
      fun hcontr => absurd hcontr (by simp), fun x hx => ?_⟩
    exact gridData_all_zero _ _ _ _ _ _ _ hx
  · obtain rfl : sh = [0, H, W, C] := h
    refine ⟨_, run4_eq dd rows cols 0 H W C hr hc,
      fun hcontr => absurd hcontr (by simp), fun _ => rfl, fun x hx => ?_⟩
    exact gridData_all_zero _ _ _ _ _ _ _ hx

/-- C1: with a non-empty batch of `N` same-shaped images (rank 3 or 4),
positive `rows`, `cols` and `rows*cols >= N`, the grid has spatial shape
`rows*H` by `cols*W`, its first `N` cells in row-major order (cell `(r, c)`
is cell index `r*cols + c`) are the corresponding input images, and every
later cell is entirely zero. -/
theorem C1_pad_to_grid (a : NpArray Int) (rows cols : Int) (N H W C : Nat)
    (hwf : a.WF) (hr : 0 < rows) (hc : 0 < cols) (hN : 0 < N)
    (hcap : N ≤ rows.toNat * cols.toNat)
    (hsh : a.shape = [N, H, W] ∨ a.shape = [N, H, W, C]) :
    ∃ g, batch_of_images_to_grid a rows cols = .ok g ∧
      (a.shape = [N, H, W] →
        g.shape = [rows.toNat * H, cols.toNat * W] ∧
        ∀ r c i j, r < rows.toNat → c < cols.toNat → i < H → j < W →
          g.get [r * H + i, c * W + j] =
            if r * cols.toNat + c < N then
              a.get [r * cols.toNat + c, i, j]
            else 0) ∧
      (a.shape = [N, H, W, C] →
        g.shape = [rows.toNat * H, cols.toNat * W, C] ∧
        ∀ r c i j ch, r < rows.toNat → c < cols.toNat → i < H → j < W →
          ch < C →
          g.get [r * H + i, c * W + j, ch] =
            if r * cols.toNat + c < N then
              a.get [r * cols.toNat + c, i, j, ch]
            else 0) := by
  obtain ⟨sh, dd⟩ := a
  rcases hsh with h | h
  · obtain rfl : sh = [N, H, W] := h
    refine ⟨_, run3_eq dd rows cols N H W hr hc, fun _ => ⟨rfl, ?_⟩,
      fun hcontr => absurd hcontr (by simp)⟩
    intro r c i j hrR hcC hiH hjW
    rw [get2_eq_get3]
    have hlen : N * [H, W, 1].prod ≤ dd.length := by
      have hl : dd.length = [N, H, W].prod := hwf
      rw [hl]
      have : N * [H, W, 1].prod = [N, H, W].prod := by
        simp only [List.prod_cons, List.prod_nil]
        ring
      exact le_of_eq this
    rw [grid_get_eq rows.toNat cols.toNat N H W 1 r c i j 0 dd hlen hrR hcC
      hiH hjW (by norm_num)]
    by_cases hk : r * cols.toNat + c < N
    · rw [if_pos hk, if_pos hk, get3_eq_get4]
    · rw [if_neg hk, if_neg hk]
  · obtain rfl : sh = [N, H, W, C] := h
    refine ⟨_, run4_eq dd rows cols N H W C hr hc,
      fun hcontr => absurd hcontr (by simp), fun _ => ⟨rfl, ?_⟩⟩
    intro r c i j ch hrR hcC hiH hjW hchC
    have hlen : N * [H, W, C].prod ≤ dd.length := by
      have hl : dd.length = [N, H, W, C].prod := hwf
      rw [hl]
      have : N * [H, W, C].prod = [N, H, W, C].prod := by
        simp only [List.prod_cons, List.prod_nil]
      exact le_of_eq this
    exact grid_get_eq rows.toNat cols.toNat N H W C r c i j ch dd hlen hrR
      hcC hiH hjW hchC

theorem C1_pad_to_grid_witness :
    ∃ g, batch_of_images_to_grid (⟨[1, 1, 1], [7]⟩ : NpArray Int) 1 2 =
      .ok g ∧ g.shape = [1, 2] ∧ g.get [0, 0] = 7 ∧ g.get [0, 1] = 0 := by
  obtain ⟨g, hok, h3, -⟩ :=
    C1_pad_to_grid ⟨[1, 1, 1], [7]⟩ 1 2 1 1 1 1 rfl (by norm_num)
      (by norm_num) (by norm_num) (by norm_num) (Or.inl rfl)
  obtain ⟨hshape, hcells⟩ := h3 rfl
  refine ⟨g, hok, hshape, ?_, ?_⟩
  · have := hcells 0 0 0 0 (by norm_num) (by norm_num) (by norm_num)
      (by norm_num)
    simpa [NpArray.get, flatIndex_cons, flatIndex_nil] using this
  · have := hcells 0 1 0 0 (by norm_num) (by norm_num) (by norm_num)
      (by norm_num)
    simpa [NpArray.get, flatIndex_cons, flatIndex_nil] using this

/-- C4 counterexample: on a 0-d batch with `rows = cols = 1`, the rank is
outside `{3, 4}` yet no `InvalidArgument` (assert) error is raised: slicing
the 0-d array fails first with numpy's `IndexError`, so the claimed
equivalence with the `InvalidArgument` error fails at rank 0. -/
theorem C4_rank0_cex :
    NpArray.ndim (⟨[], [5]⟩ : NpArray Int) = 0 ∧
    isError (batch_of_images_to_grid (⟨[], [5]⟩ : NpArray Int) 1 1) = true ∧
    isInvalidArg (batch_of_images_to_grid (⟨[], [5]⟩ : NpArray Int) 1 1) =
      false := by
  decide

/-- C4 (amended): the tiler errors exactly when `rows <= 0`, `cols <= 0`,
or the batch rank is outside `{3, 4}`; the error is the `InvalidArgument`
assert in every such case except rank 0, where slicing fails with
`IndexError` before the rank assert (so for rank at least 1 the original
equivalence holds verbatim). -/
theorem C4_invalid_args (a : NpArray Int) (rows cols : Int) :
    (isError (batch_of_images_to_grid a rows cols) = true ↔
      rows ≤ 0 ∨ cols ≤ 0 ∨ (a.ndim ≠ 3 ∧ a.ndim ≠ 4)) ∧
    (1 ≤ a.ndim →
      (isInvalidArg (batch_of_images_to_grid a rows cols) = true ↔
        rows ≤ 0 ∨ cols ≤ 0 ∨ (a.ndim ≠ 3 ∧ a.ndim ≠ 4))) := by
  obtain ⟨sh, dd⟩ := a
  by_cases hpos : 0 < rows ∧ 0 < cols
  · obtain ⟨hr, hc⟩ := hpos
    by_cases h3 : sh.length = 3
    · obtain ⟨N, H, W, rfl⟩ := shape3 sh h3
      rw [run3_eq dd rows cols N H W hr hc]
      constructor
      · simp only [isError, NpArray.ndim, List.length_cons, List.length_nil]
        constructor
        · intro hfalse
          exact absurd hfalse (by simp)
        · intro hor
          exact absurd hor (by omega)
      · intro _
        simp only [isInvalidArg, NpArray.ndim, List.length_cons,
          List.length_nil]
        constructor
        · intro hfalse
          exact absurd hfalse (by simp)
        · intro hor
          exact absurd hor (by omega)
    · by_cases h4 : sh.length = 4
      · obtain ⟨N, H, W, C, rfl⟩ := shape4 sh h4
        rw [run4_eq dd rows cols N H W C hr hc]
        constructor
        · simp only [isError, NpArray.ndim, List.length_cons,
            List.length_nil]
          constructor
          · intro hfalse
            exact absurd hfalse (by simp)
          · intro hor
            exact absurd hor (by omega)
        · intro _
          simp only [isInvalidArg, NpArray.ndim, List.length_cons,
            List.length_nil]
          constructor
          · intro hfalse
            exact absurd hfalse (by simp)
          · intro hor
            exact absurd hor (by omega)
      · cases sh with
        | nil =>
          rw [err_rank0 dd rows cols hr hc]
          refine ⟨?_, ?_⟩
          · simp only [isError, NpArray.ndim, List.length_nil]
            constructor
            · intro _
              exact Or.inr (Or.inr (by omega))
            · intro _
              trivial
          · intro hge
            exact absurd hge (by simp [NpArray.ndim])
        | cons d0 ds =>
          rw [err_badrank (d0 :: ds) dd rows cols hr hc (by simp) h3 h4]
          refine ⟨?_, fun _ => ?_⟩
          · simp only [isError, NpArray.ndim]
            constructor
            · intro _
              exact Or.inr (Or.inr ⟨h3, h4⟩)
            · intro _
              trivial
          · simp only [isInvalidArg, NpArray.ndim]
            constructor
            · intro _
              exact Or.inr (Or.inr ⟨h3, h4⟩)
            · intro _
              trivial
  · rw [err_nonpos _ rows cols hpos]
    have hle : rows ≤ 0 ∨ cols ≤ 0 := by omega
    refine ⟨?_, fun _ => ?_⟩
    · simp only [isError]
      constructor
      · intro _
        rcases hle with h | h
        · exact Or.inl h
        · exact Or.inr (Or.inl h)
      · intro _
        trivial
    · simp only [isInvalidArg]
      constructor
      · intro _
        rcases hle with h | h
        · exact Or.inl h
        · exact Or.inr (Or.inl h)
      · intro _
        trivial

theorem C4_invalid_args_witness :
    isError (batch_of_images_to_grid (⟨[1, 1, 1], [5]⟩ : NpArray Int) 0 1) =
      true :=
  (C4_invalid_args ⟨[1, 1, 1], [5]⟩ 0 1).1.mpr (Or.inl (by norm_num))

/-- C5 counterexample: a batch holding a 1x1 image and a 2x2 image (two
different shapes) does not fail with `ShapeMismatch`: the code has no such
error; numpy only forms a rank-1 object array from the list and the rank
assert rejects it as `InvalidArgument`. -/
theorem C5_mismatch_cex :
    tileList [(⟨[1, 1], [0]⟩ : NpArray Int), ⟨[2, 2], [0, 0, 0, 0]⟩] 1 2 =
      .error (.invalidArgument dimMsg) ∧
    tileList [(⟨[1, 1], [0]⟩ : NpArray Int), ⟨[2, 2], [0, 0, 0, 0]⟩] 1 2 ≠
      .error .shapeMismatch := by
  decide

/-- C5 (amended): on every batch containing two images of different shapes
the tiler does fail rather than return a grid, but with the
`InvalidArgument` rank assert (or the positivity assert when `rows` or
`cols` is non-positive), never with a `ShapeMismatch` error, which the
code does not define. -/
theorem C5_mismatch_rejected (images : List (NpArray Int)) (rows cols : Int)
    (img1 img2 : NpArray Int) (h1 : img1 ∈ images) (h2 : img2 ∈ images)
    (hne : img1.shape ≠ img2.shape) :
    tileList images rows cols =
      .error (.invalidArgument
        (if 0 < rows ∧ 0 < cols then dimMsg else posMsg)) := by
  obtain ⟨hd, tl, rfl⟩ : ∃ hd tl, images = hd :: tl := by
    cases images with
    | nil => simp at h1
    | cons a l => exact ⟨a, l, rfl⟩
  have hstack : stackImages (hd :: tl) = none := by
    simp only [stackImages]
    rw [if_neg]
    intro hall
    rw [List.all_eq_true] at hall
    have e1 := hall img1 h1
    have e2 := hall img2 h2
    rw [beq_iff_eq] at e1 e2
    exact hne (e1.trans e2.symm)
  simp only [tileList, hstack, objArray]
  by_cases hpos : 0 < rows ∧ 0 < cols
  · rw [err_badrank [(hd :: tl).length] (hd :: tl) rows cols hpos.1 hpos.2
      (by simp) (by simp) (by simp)]
    rw [if_pos hpos]
  · rw [err_nonpos ⟨[(hd :: tl).length], hd :: tl⟩ rows cols hpos]
    rw [if_neg hpos]

theorem C5_mismatch_rejected_witness :
    tileList [(⟨[1, 1], [0]⟩ : NpArray Int), ⟨[2, 2], [0, 0, 0, 0]⟩] 1 3 =
      .error (.invalidArgument
        (if 0 < (1 : Int) ∧ 0 < (3 : Int) then dimMsg else posMsg)) :=
  C5_mismatch_rejected [⟨[1, 1], [0]⟩, ⟨[2, 2], [0, 0, 0, 0]⟩] 1 3
    ⟨[1, 1], [0]⟩ ⟨[2, 2], [0, 0, 0, 0]⟩ (by simp) (by simp) (by decide)

/-- C2: with more images than grid cells (`rows*cols < N`), every cell of
the grid is one of the first `rows*cols` input images, placed in row-major
order, and the trailing images have no effect: any batch of the same image
shape agreeing on the first `rows*cols` images produces the identical
grid. -/
theorem C2_truncate (a : NpArray Int) (rows cols : Int) (N H W C : Nat)
    (hwf : a.WF) (hr : 0 < rows) (hc : 0 < cols)
    (hover : rows.toNat * cols.toNat < N)
    (hsh : a.shape = [N, H, W] ∨ a.shape = [N, H, W, C]) :
    ∃ g, batch_of_images_to_grid a rows cols = .ok g ∧
      (a.shape = [N, H, W] →
        (∀ r c i j, r < rows.toNat → c < cols.toNat → i < H → j < W →
          g.get [r * H + i, c * W + j] =
            a.get [r * cols.toNat + c, i, j]) ∧
        ∀ (b : NpArray Int) (N2 : Nat), b.shape = [N2, H, W] →
          rows.toNat * cols.toNat ≤ N2 →
          a.data.take (rows.toNat * cols.toNat * (H * W)) =
            b.data.take (rows.toNat * cols.toNat * (H * W)) →
          batch_of_images_to_grid b rows cols = .ok g) ∧
      (a.shape = [N, H, W, C] →
        (∀ r c i j ch, r < rows.toNat → c < cols.toNat → i < H → j < W →
          ch < C →
          g.get [r * H + i, c * W + j, ch] =
            a.get [r * cols.toNat + c, i, j, ch]) ∧
        ∀ (b : NpArray Int) (N2 : Nat), b.shape = [N2, H, W, C] →
          rows.toNat * cols.toNat ≤ N2 →
          a.data.take (rows.toNat * cols.toNat * (H * W * C)) =
            b.data.take (rows.toNat * cols.toNat * (H * W * C)) →
          batch_of_images_to_grid b rows cols = .ok g) := by
  obtain ⟨sh, dd⟩ := a
  rcases hsh with h | h
  · obtain rfl : sh = [N, H, W] := h
    refine ⟨_, run3_eq dd rows cols N H W hr hc, fun _ => ⟨?_, ?_⟩,
      fun hcontr => absurd hcontr (by simp)⟩
    · intro r c i j hrR hcC hiH hjW
      rw [get2_eq_get3]
      have hlen : N * [H, W, 1].prod ≤ dd.length := by
        have hl : dd.length = [N, H, W].prod := hwf
        rw [hl]
        exact le_of_eq (by simp only [List.prod_cons, List.prod_nil]; ring)
      rw [grid_get_eq rows.toNat cols.toNat N H W 1 r c i j 0 dd hlen hrR
        hcC hiH hjW (by norm_num)]
      have hk : r * cols.toNat + c < N := by
        have := addIndex_lt r c rows.toNat cols.toNat hrR hcC
        omega
      rw [if_pos hk, get3_eq_get4]
    · intro b N2 hbsh hN2 hpre
      obtain ⟨shb, db⟩ := b
      obtain rfl : shb = [N2, H, W] := hbsh
      rw [run3_eq db rows cols N2 H W hr hc]
      have hamt : rows.toNat * cols.toNat * (H * W) =
          rows.toNat * cols.toNat * [H, W, 1].prod := by
        simp only [List.prod_cons, List.prod_nil]
        ring
      rw [hamt] at hpre
      rw [gridData_take_eq rows.toNat cols.toNat N2 N H W 1 db dd hN2
        (by omega) hpre.symm]
  · obtain rfl : sh = [N, H, W, C] := h
    refine ⟨_, run4_eq dd rows cols N H W C hr hc,
      fun hcontr => absurd hcontr (by simp), fun _ => ⟨?_, ?_⟩⟩
    · intro r c i j ch hrR hcC hiH hjW hchC
      have hlen : N * [H, W, C].prod ≤ dd.length := by
        have hl : dd.length = [N, H, W, C].prod := hwf
        rw [hl]
        exact le_of_eq (by simp only [List.prod_cons, List.prod_nil])
      rw [grid_get_eq rows.toNat cols.toNat N H W C r c i j ch dd hlen hrR
        hcC hiH hjW hchC]
      have hk : r * cols.toNat + c < N := by
        have := addIndex_lt r c rows.toNat cols.toNat hrR hcC
        omega
      rw [if_pos hk]
    · intro b N2 hbsh hN2 hpre
      obtain ⟨shb, db⟩ := b
      obtain rfl : shb = [N2, H, W, C] := hbsh
      rw [run4_eq db rows cols N2 H W C hr hc]
      have hamt : rows.toNat * cols.toNat * (H * W * C) =
          rows.toNat * cols.toNat * [H, W, C].prod := by
        simp only [List.prod_cons, List.prod_nil]
        ring
      rw [hamt] at hpre
      rw [gridData_take_eq rows.toNat cols.toNat N2 N H W C db dd hN2
        (by omega) hpre.symm]

theorem C2_truncate_witness :
    ∃ g, batch_of_images_to_grid
        (⟨[5, 1, 1], [1, 2, 3, 4, 5]⟩ : NpArray Int) 1 2 = .ok g ∧
      g.get [0, 0] = 1 ∧ g.get [0, 1] = 2 ∧
      batch_of_images_to_grid (⟨[2, 1, 1], [1, 2]⟩ : NpArray Int) 1 2 =
        .ok g := by
  obtain ⟨g, hok, h3, -⟩ :=
    C2_truncate ⟨[5, 1, 1], [1, 2, 3, 4, 5]⟩ 1 2 5 1 1 1 rfl
      (by norm_num) (by norm_num) (by norm_num) (Or.inl rfl)
  obtain ⟨hcells, hirrel⟩ := h3 rfl
  refine ⟨g, hok, ?_, ?_, ?_⟩
  · have := hcells 0 0 0 0 (by norm_num) (by norm_num) (by norm_num)
      (by norm_num)
    simpa [NpArray.get, flatIndex_cons, flatIndex_nil] using this
  · have := hcells 0 1 0 0 (by norm_num) (by norm_num) (by norm_num)
      (by norm_num)
    simpa [NpArray.get, flatIndex_cons, flatIndex_nil] using this
  · exact hirrel ⟨[2, 1, 1], [1, 2]⟩ 2 rfl (by norm_num) (by decide)

theorem C10_empty_batch_witness :
    ∃ g, batch_of_images_to_grid (⟨[0, 2, 3], []⟩ : NpArray Int) 2 2 =
      .ok g ∧
      ((⟨[0, 2, 3], []⟩ : NpArray Int).shape = [0, 2, 3] →
        g.shape = [(2 : Int).toNat * 2, (2 : Int).toNat * 3]) ∧
      ((⟨[0, 2, 3], []⟩ : NpArray Int).shape = [0, 2, 3, 5] →
        g.shape = [(2 : Int).toNat * 2, (2 : Int).toNat * 3, 5]) ∧
      ∀ x ∈ g.data, x = 0 :=
  C10_empty_batch ⟨[0, 2, 3], []⟩ 2 2 2 3 5 (by norm_num) (by norm_num)
    (Or.inl rfl)
